import Mathlib

/-!
Shallow embedding of the redis-mongoose-cache orchestrator (src/src/index.ts,
class CacheClient).  JavaScript runtime values are modelled by `JSVal`
(strings, numbers — integral as `Int`, fractional as exact decimals —
booleans, null, objects as association lists, and arrays); the IEEE-754
rounding JavaScript applies on top of a decimal literal is outside the
model.  JSON.parse is modelled over the full RFC 8259 grammar, so a string
decodes in the model exactly when it decodes in JavaScript.  Promises are
modelled
by `Outcome`: a promise either resolves, rejects, or never settles (`hung` —
this happens in the source whenever an exception is thrown inside an `async`
promise-executor before `resolve`/`reject` was called, because the Promise
constructor never observes a rejection of the executor's own async return
value).  A `reject(...)` call that is not followed by `return` settles the
promise but lets execution continue; only the first settlement counts.  The
two backing layers are modelled per the spec's external-interface contracts:
the fast layer stores string field values (its client rejects a non-string
value), the durable store persists structured documents per collection.
-/

/-- A JavaScript runtime value, as used by the cache orchestrator.  Numbers
with integral value are `vNum`; a number with a fractional part is kept as
the exact decimal `vDec m e` = m * 10^e with e < 0 and m not divisible by
10 (the IEEE double rounding JavaScript applies on top of the decimal is
outside the model).  Arrays and plain objects are separate constructors
because ToString coercion distinguishes them. -/
inductive JSVal where
  | vStr (s : String)
  | vNum (n : Int)
  | vDec (m : Int) (e : Int)
  | vBool (b : Bool)
  | vNull
  | vObj (fields : List (String × JSVal))
  | vArr (elems : List JSVal)
deriving Repr

/-- JavaScript truthiness (`if (x)`): empty string, 0, false and null are
falsy; every object and array (even empty) is truthy. -/
def jsTruthy : JSVal → Bool
  | .vStr s => s ≠ ""
  | .vNum n => n ≠ 0
  | .vDec m _ => m ≠ 0
  | .vBool b => b
  | .vNull => false
  | .vObj _ => true
  | .vArr _ => true

/-- JavaScript `typeof` of a modelled value (typeof null is "object", and
so is typeof of an array). -/
def typeofJS : JSVal → String
  | .vStr _ => "string"
  | .vNum _ => "number"
  | .vDec _ _ => "number"
  | .vBool _ => "boolean"
  | .vNull => "object"
  | .vObj _ => "object"
  | .vArr _ => "object"

/-- `String.prototype.toLowerCase` restricted to ASCII, written over the
character list so that it evaluates by kernel reduction. -/
def jsToLowerCase (s : String) : String := String.mk (s.data.map Char.toLower)

-- Association lists (string-keyed maps), used for both backing stores and
-- for the members of a decoded JSON object.

def alGet {α : Type} : List (String × α) → String → Option α
  | [], _ => none
  | (k2, v) :: rest, k => if k2 = k then some v else alGet rest k

def alSet {α : Type} : List (String × α) → String → α → List (String × α)
  | [], k, v => [(k, v)]
  | (k2, v2) :: rest, k, v =>
      if k2 = k then (k, v) :: rest else (k2, v2) :: alSet rest k v

/-- Decimal rendering of the exact decimal m * 10^e for e < 0, as
`Number.prototype.toString` prints such values (plain positional notation;
the switch to exponential notation JavaScript makes at extreme magnitudes
is outside the model). -/
def decToString (m e : Int) : String :=
  let sign := if m < 0 then "-" else ""
  let ds := (toString m.natAbs).data
  if e ≥ 0 then
    sign ++ String.mk ds ++ String.mk (List.replicate e.toNat '0')
  else
    let k := (-e).toNat
    if ds.length ≤ k then
      sign ++ "0." ++ String.mk (List.replicate (k - ds.length) '0' ++ ds)
    else
      sign ++ String.mk (ds.take (ds.length - k)) ++ "."
        ++ String.mk (ds.drop (ds.length - k))

/-- JavaScript ToString coercion.  Plain objects coerce to
"[object Object]"; an array coerces to its elements joined by "," (null
elements render empty), which recurses into nested arrays — the depth
argument models the call-stack bound (the exhaustion arm is unreachable for
every value the theorems below touch). -/
def jsToStringAux : Nat → JSVal → String
  | 0, _ => ""
  | fuel + 1, v =>
    match v with
    | JSVal.vStr s => s
    | JSVal.vNum n => toString n
    | JSVal.vDec m e => decToString m e
    | JSVal.vBool b => if b then "true" else "false"
    | JSVal.vNull => "null"
    | JSVal.vObj _ => "[object Object]"
    | JSVal.vArr l =>
        String.intercalate ","
          (l.map (fun x =>
            match x with
            | JSVal.vNull => ""
            | _ => jsToStringAux fuel x))

def jsToString (v : JSVal) : String := jsToStringAux 1000 v

-- JSON codec: JSON.parse over the full RFC 8259 grammar (objects, arrays,
-- strings with escapes, numbers with fraction and exponent, keywords),
-- with `none` modelling a thrown SyntaxError.

def isWsChar (c : Char) : Bool := c = ' ' || c = '\t' || c = '\n' || c = '\r'

def skipWsChars (cs : List Char) : List Char := cs.dropWhile isWsChar

/-- The single-character JSON escapes and what they decode to. -/
def escTable : List (Char × Char) :=
  [('"', '"'), ('\\', '\\'), ('/', '/'), ('n', Char.ofNat 10),
   ('t', Char.ofNat 9), ('r', Char.ofNat 13), ('b', Char.ofNat 8),
   ('f', Char.ofNat 12)]

def escChar (c : Char) : Option Char :=
  (escTable.find? (fun p => p.1 = c)).map (fun p => p.2)

def hexDigitVal (c : Char) : Option Nat :=
  if c.isDigit then some (c.toNat - 48)
  else if 'a' ≤ c && c ≤ 'f' then some (c.toNat - 87)
  else if 'A' ≤ c && c ≤ 'F' then some (c.toNat - 55)
  else none

def hex4Val (a b c d : Char) : Option Nat :=
  match hexDigitVal a, hexDigitVal b, hexDigitVal c, hexDigitVal d with
  | some x, some y, some z, some w => some (((x * 16 + y) * 16 + z) * 16 + w)
  | _, _, _, _ => none

/-- Parse the remainder of a JSON string literal (after the opening quote),
returning the decoded text and the unconsumed input.  Two adjacent \uXXXX
escapes forming a surrogate pair decode to the combined code point; a lone
surrogate is not a Unicode scalar value, which Lean strings cannot hold, so
`Char.ofNat` maps it to its fallback character.  Raw control characters are
rejected, as RFC 8259 requires. -/
def parseJsonStringLit : List Char → Option (String × List Char)
  | [] => none
  | '"' :: rest => some ("", rest)
  | '\\' :: 'u' :: a :: b :: c :: d :: '\\' :: 'u' :: e :: f :: g :: h :: rest =>
      match hex4Val a b c d, hex4Val e f g h with
      | some n, some m =>
          (parseJsonStringLit rest).map (fun p =>
            if 0xD800 ≤ n && n ≤ 0xDBFF && 0xDC00 ≤ m && m ≤ 0xDFFF then
              ((Char.ofNat (0x10000 + (n - 0xD800) * 0x400 + (m - 0xDC00))).toString
                ++ p.1, p.2)
            else ((Char.ofNat n).toString ++ (Char.ofNat m).toString ++ p.1, p.2))
      | _, _ => none
  | '\\' :: 'u' :: a :: b :: c :: d :: rest =>
      match hex4Val a b c d with
      | some n =>
          (parseJsonStringLit rest).map (fun p => ((Char.ofNat n).toString ++ p.1, p.2))
      | none => none
  | '\\' :: c :: rest =>
      match escChar c, parseJsonStringLit rest with
      | some e, some (s, r) => some (e.toString ++ s, r)
      | _, _ => none
  | c :: rest =>
      if c.toNat < 32 then none
      else
        match parseJsonStringLit rest with
        | some (s, r) => some (c.toString ++ s, r)
        | none => none

def digitVal (c : Char) : Nat := c.toNat - 48

def digitsVal (ds : List Char) : Nat := ds.foldl (fun a c => a * 10 + digitVal c) 0

/-- Remove the trailing '0' digits of a digit string, also returning how
many were removed. -/
def dropTrailingZeros (ds : List Char) : List Char × Nat :=
  let rev := ds.reverse
  let stripped := rev.dropWhile (fun c => c = '0')
  (stripped.reverse, rev.length - stripped.length)

/-- Build the value of the number literal sign * (intDs "." fracDs) * 10^exp
in canonical form: integral values become `vNum`, others `vDec m e` with
10 not dividing m and e < 0. -/
def mkJsonNumber (neg : Bool) (intDs fracDs : List Char) (exp : Int) : JSVal :=
  let p := dropTrailingZeros (intDs ++ fracDs)
  let m := digitsVal p.1
  let e : Int := exp - fracDs.length + p.2
  if m = 0 then JSVal.vNum 0
  else if e ≥ 0 then
    JSVal.vNum ((if neg then -(m : Int) else (m : Int)) * (10 : Int) ^ e.toNat)
  else JSVal.vDec (if neg then -(m : Int) else (m : Int)) e

def parseExpDigits (neg : Bool) (intDs fracDs : List Char) (cs : List Char) :
    Option (JSVal × List Char) :=
  let p : Bool × List Char := match cs with
    | '+' :: r => (false, r)
    | '-' :: r => (true, r)
    | _ => (false, cs)
  let ds := p.2.takeWhile Char.isDigit
  if ds.isEmpty then none
  else
    let ev : Int := if p.1 then -(digitsVal ds : Int) else (digitsVal ds : Int)
    some (mkJsonNumber neg intDs fracDs ev, p.2.dropWhile Char.isDigit)

def parseExpPart (neg : Bool) (intDs fracDs : List Char) (cs : List Char) :
    Option (JSVal × List Char) :=
  match cs with
  | 'e' :: r => parseExpDigits neg intDs fracDs r
  | 'E' :: r => parseExpDigits neg intDs fracDs r
  | _ => some (mkJsonNumber neg intDs fracDs 0, cs)

/-- Parse a JSON number literal: optional minus sign, an integer part with
no leading zero (except "0" itself), an optional fraction, an optional
exponent. -/
def parseNumberLit (cs : List Char) : Option (JSVal × List Char) :=
  let p : Bool × List Char := match cs with
    | '-' :: r => (true, r)
    | _ => (false, cs)
  let intDs := p.2.takeWhile Char.isDigit
  if intDs.isEmpty then none
  else if intDs.head? = some '0' && intDs.length > 1 then none
  else
    match p.2.dropWhile Char.isDigit with
    | '.' :: r =>
        let fracDs := r.takeWhile Char.isDigit
        if fracDs.isEmpty then none
        else parseExpPart p.1 intDs fracDs (r.dropWhile Char.isDigit)
    | rest => parseExpPart p.1 intDs [] rest

def matchKeyword (kw : List Char) (cs : List Char) : Option (List Char) :=
  if cs.take kw.length = kw then some (cs.drop kw.length) else none

/-- What the JSON reader is in the middle of: a value, the elements of an
array (those already read, reversed), or the members of an object (those
already read, with a repeated key overwriting the earlier one, as
JSON.parse does). -/
inductive JsonMode where
  | value
  | arrayElems (acc : List JSVal)
  | objectMembers (acc : List (String × JSVal))

/-- Recursive-descent JSON reader, structurally recursive on a depth
budget: every recursive call consumes at least one character of input
first, so the budget `jsonParse` passes (twice the input length plus two)
is never exhausted — the `0` arm stands for the stack-overflow RangeError a
deeper-than-the-stack document would throw. -/
def jsonRec : Nat → JsonMode → List Char → Option (JSVal × List Char)
  | 0, _, _ => none
  | fuel + 1, JsonMode.value, cs =>
    match cs with
    | '"' :: rest => (parseJsonStringLit rest).map (fun p => (JSVal.vStr p.1, p.2))
    | 't' :: _ => (matchKeyword "true".toList cs).map (fun r => (JSVal.vBool true, r))
    | 'f' :: _ => (matchKeyword "false".toList cs).map (fun r => (JSVal.vBool false, r))
    | 'n' :: _ => (matchKeyword "null".toList cs).map (fun r => (JSVal.vNull, r))
    | '[' :: rest =>
        (match skipWsChars rest with
         | ']' :: rest2 => some (JSVal.vArr [], rest2)
         | rest2 => jsonRec fuel (JsonMode.arrayElems []) rest2)
    | '{' :: rest =>
        (match skipWsChars rest with
         | '}' :: rest2 => some (JSVal.vObj [], rest2)
         | rest2 => jsonRec fuel (JsonMode.objectMembers []) rest2)
    | _ => parseNumberLit cs
  | fuel + 1, JsonMode.arrayElems acc, cs =>
    match jsonRec fuel JsonMode.value cs with
    | none => none
    | some (v, rest) =>
        match skipWsChars rest with
        | ',' :: rest2 => jsonRec fuel (JsonMode.arrayElems (v :: acc)) (skipWsChars rest2)
        | ']' :: rest2 => some (JSVal.vArr (v :: acc).reverse, rest2)
        | _ => none
  | fuel + 1, JsonMode.objectMembers acc, cs =>
    match cs with
    | '"' :: rest =>
        (match parseJsonStringLit rest with
         | none => none
         | some (k, rest1) =>
            match skipWsChars rest1 with
            | ':' :: rest2 =>
                (match jsonRec fuel JsonMode.value (skipWsChars rest2) with
                 | none => none
                 | some (v, rest3) =>
                    match skipWsChars rest3 with
                    | ',' :: rest4 =>
                        jsonRec fuel (JsonMode.objectMembers (alSet acc k v)) (skipWsChars rest4)
                    | '}' :: rest4 => some (JSVal.vObj (alSet acc k v), rest4)
                    | _ => none)
            | _ => none)
    | _ => none

/-- JSON.parse on a whole string: one value surrounded by optional
whitespace; `none` models a thrown SyntaxError. -/
def jsonParse (s : String) : Option JSVal :=
  match jsonRec (2 * s.data.length + 2) JsonMode.value (skipWsChars s.data) with
  | some (v, rest) => if (skipWsChars rest).isEmpty then some v else none
  | none => none

/-- `JSON.parse(s)` wrapped in the source's try/catch: the decoded value, or
the original string when decoding fails. -/
def parseStr (s : String) : JSVal := (jsonParse s).getD (JSVal.vStr s)

/-- Recursion worker for `jsParse`, structurally recursive on the nesting
depth still allowed by the JavaScript call stack: one unit of depth is
consumed per descent into a container's element values (iterating over one
container's fields consumes none).  Running out of depth models the
RangeError a runaway recursion throws; like every other throw inside
`parse`, it is modelled as `none`. -/
def jsParseAux : Nat → JSVal → Option JSVal
  | 0, _ => none
  | fuel + 1, v =>
    match v with
    | JSVal.vStr s => some (parseStr s)
    | JSVal.vNum _ => some (JSVal.vObj [])
    | JSVal.vDec _ _ => some (JSVal.vObj [])
    | JSVal.vBool _ => some (JSVal.vObj [])
    | JSVal.vNull => none
    | JSVal.vObj fields =>
        (fields.foldr
          (fun p acc =>
            match jsParseAux fuel p.2, acc with
            | some v2, some l => some ((p.1, v2) :: l)
            | _, _ => none)
          (some [])).map JSVal.vObj
    | JSVal.vArr elems =>
        (elems.foldr
          (fun x acc =>
            match jsParseAux fuel x, acc with
            | some x2, some l => some (x2 :: l)
            | _, _ => none)
          (some [])).map JSVal.vArr

/-- `CacheClient.parse` (src/src/index.ts:453): on a string, JSON.parse with
fallback to the original string; on anything else, `Object.keys(data)` is
mapped over, re-parsing each property.  The result is an array carrying the
re-parsed properties: for an object input it is read as its property
mapping (`vObj`), for an array input the index keys make it the array of
re-parsed elements (`vArr`), and for a non-object non-null value the key
set is empty, leaving the empty property mapping.  `Object.keys(null)`
throws a TypeError, modelled as `none`. -/
def jsParse (v : JSVal) : Option JSVal := jsParseAux 1000 v

/-- `CacheClient.stringify` (src/src/index.ts:445): a string is passed
through; any other value is given to `JSON.parse` (sic — not
JSON.stringify), which first coerces its argument with ToString; `none`
models the SyntaxError thrown when that coerced text is not valid JSON
(e.g. "[object Object]"). -/
def stringify : JSVal → Option JSVal
  | JSVal.vStr s => some (JSVal.vStr s)
  | v => jsonParse (jsToString v)

/-- The fast layer's state: outer key → field → stored string. -/
def hget (r : List (String × List (String × String))) (key field : String) :
    Option String :=
  (alGet r key).bind (fun h => alGet h field)

def hset (r : List (String × List (String × String))) (key field value : String) :
    List (String × List (String × String)) :=
  alSet r key (alSet ((alGet r key).getD []) field value)

/-- The durable store's state: collection name → id → document fields. -/
def findOne (m : List (String × List (String × List (String × JSVal))))
    (modelName id : String) : Option (List (String × JSVal)) :=
  (alGet m modelName).bind (fun coll => alGet coll id)

def mongoUpsert (m : List (String × List (String × List (String × JSVal))))
    (modelName id field : String) (v : JSVal) :
    List (String × List (String × List (String × JSVal))) :=
  let coll := (alGet m modelName).getD []
  let doc := (alGet coll id).getD []
  alSet m modelName (alSet coll id (alSet doc field v))

/-- Settlement state of a promise: resolved, rejected, or never settled. -/
inductive Outcome (α : Type) where
  | resolved (a : α)
  | rejected (msg : String)
  | hung
deriving Repr

/-- The mutable state of a `CacheClient` instance together with its two
backing stores; the four counters instrument every command actually issued
to a backing layer. -/
structure ClientState where
  modelNames : List String
  schemas : List (String × List (String × String))
  ready : Bool
  redisStatus : Bool
  mongooseStatus : Bool
  hasRedis : Bool
  hasMongo : Bool
  redis : List (String × List (String × String))
  mongo : List (String × List (String × List (String × JSVal)))
  redisReads : Nat
  redisWrites : Nat
  mongoReads : Nat
  mongoWrites : Nat
deriving Repr

def schemaOf (st : ClientState) (modelName : String) : List (String × String) :=
  (alGet st.schemas modelName).getD []

namespace CacheClient

/-- `getFromRedis` (index.ts:272): HGET, or rejection when not connected. A
missing field resolves with null. -/
def getFromRedis (st : ClientState) (key field : String) :
    Outcome JSVal × ClientState :=
  if !st.ready || !st.hasRedis then (.rejected "Not connected.", st)
  else
    let st1 := { st with redisReads := st.redisReads + 1 }
    match hget st.redis key field with
    | some s => (.resolved (.vStr s), st1)
    | none => (.resolved .vNull, st1)

/-- `getAllFromRedis` (index.ts:291): HGETALL; a missing key resolves with
null, an existing hash with the field → string object. -/
def getAllFromRedis (st : ClientState) (key : String) :
    Outcome JSVal × ClientState :=
  if !st.ready || !st.hasRedis then (.rejected "Not connected.", st)
  else
    let st1 := { st with redisReads := st.redisReads + 1 }
    match alGet st.redis key with
    | some m => (.resolved (.vObj (m.map (fun p => (p.1, JSVal.vStr p.2)))), st1)
    | none => (.resolved .vNull, st1)

/-- `setToRedis` (index.ts:312): HSET.  The fast layer's field values are
strings (spec §6: `setField(outerKey, field, serializedValue)`); the client
call errors out on a value of any other runtime type. -/
def setToRedis (st : ClientState) (key field : String) (value : JSVal) :
    Outcome Bool × ClientState :=
  if !st.ready || !st.hasRedis then (.rejected "Not connected.", st)
  else
    match value with
    | .vStr s =>
        (.resolved true,
          { st with redis := hset st.redis key field s,
                    redisWrites := st.redisWrites + 1 })
    | _ => (.rejected "Invalid argument type", st)

/-- `getFromMongoose` (index.ts:339): findOne by id, then
`doc ? (doc[field] ? doc[field] : null) : null` — any falsy stored field
value is mapped to null.  The unknown-model guard uses `throw` inside the
async executor, so that branch never settles. -/
def getFromMongoose (st : ClientState) (modelName identifier field : String) :
    Outcome JSVal × ClientState :=
  if st.modelNames.contains modelName = false then (.hung, st)
  else if !st.ready || !st.hasMongo then (.rejected "Not connected.", st)
  else
    let st1 := { st with mongoReads := st.mongoReads + 1 }
    match findOne st.mongo modelName identifier with
    | none => (.resolved .vNull, st1)
    | some doc =>
        match alGet doc field with
        | none => (.resolved .vNull, st1)
        | some v => if jsTruthy v then (.resolved v, st1) else (.resolved .vNull, st1)

/-- `getAllFromMongoose` (index.ts:363): findOne by id, resolving the whole
document as-is (null when absent).  Note the connection guard tests
`mongooseStatus`, not `ready`. -/
def getAllFromMongoose (st : ClientState) (modelName identifier : String) :
    Outcome JSVal × ClientState :=
  if st.modelNames.contains modelName = false then (.hung, st)
  else if !st.mongooseStatus || !st.hasMongo then (.rejected "Not connected.", st)
  else
    let st1 := { st with mongoReads := st.mongoReads + 1 }
    match findOne st.mongo modelName identifier with
    | none => (.resolved .vNull, st1)
    | some doc => (.resolved (.vObj doc), st1)

/-- `mongooseCastCheck` (index.ts:414): `true` iff the field is declared in
the schema and `typeof this.parse(value)` equals the declared instance name
lower-cased; `false` models the thrown Error (including the TypeError from
`Object.keys(null)` inside `parse`). -/
def mongooseCastCheck (schema : List (String × String)) (fieldName : String)
    (value : JSVal) : Bool :=
  match alGet schema fieldName with
  | none => false
  | some inst =>
      match jsParse value with
      | none => false
      | some parsed => typeofJS parsed = jsToLowerCase inst

/-- `setMongoose` (index.ts:388): guard, cast check, then
`updateOne({_id}, {[field]: this.parse(value)}, {upsert: true})`.  A throw
from the guard or the cast check leaves the promise unsettled. -/
def setMongoose (st : ClientState) (modelName identifier field : String)
    (value : JSVal) : Outcome Bool × ClientState :=
  if st.modelNames.contains modelName = false then (.hung, st)
  else if !st.mongooseStatus || !st.hasMongo then (.rejected "Not connected.", st)
  else if mongooseCastCheck (schemaOf st modelName) field value = false then (.hung, st)
  else
    match jsParse value with
    | some parsed =>
        (.resolved true,
          { st with mongo := mongoUpsert st.mongo modelName identifier field parsed,
                    mongoWrites := st.mongoWrites + 1 })
    | none => (.hung, st)

/-- `get` (index.ts:123).  `settled.getD o` realises first-settlement-wins:
`reject` without `return` records a settlement and execution continues; an
awaited rejection or a synchronous throw aborts execution, leaving the
promise on its prior settlement or unsettled. -/
def get (st : ClientState) (type hash key : String) :
    Outcome JSVal × ClientState :=
  if st.modelNames.contains type = false then
    (.rejected ("Model \"" ++ type ++ "\" is unknown."), st)
  else
    let s0 : Option (Outcome JSVal) :=
      if !st.redisStatus && !st.mongooseStatus then
        some (.rejected "Client is not connected.")
      else none
    match (if st.redisStatus then getFromRedis st hash key
           else (.resolved .vNull, st)) with
    | (.resolved r0, st1) =>
      if jsTruthy r0 = false then
        let s1 : Option (Outcome JSVal) :=
          if !st.mongooseStatus then
            some (s0.getD (.rejected "Cannot connect to Mongoose."))
          else s0
        match getFromMongoose st1 type hash key with
        | (.resolved r1, st2) =>
          if jsTruthy r1 then
            match stringify r1 with
            | none => (s1.getD .hung, st2)
            | some w =>
                -- fire-and-forget: this.setToRedis(...) is not awaited
                (s1.getD (.resolved r1), (setToRedis st2 hash key w).2)
          else (s1.getD (.resolved r1), st2)
        | (.rejected _, st2) => (s1.getD .hung, st2)
        | (.hung, st2) => (s1.getD .hung, st2)
      else
        match jsParse r0 with
        | some v => (s0.getD (.resolved v), st1)
        | none => (s0.getD .hung, st1)
    | (.rejected _, st1) => (s0.getD .hung, st1)
    | (.hung, st1) => (s0.getD .hung, st1)

/-- `getAll` (index.ts:179): a fast-layer hit is parsed field-by-field; a
miss resolves the whole durable document as-is, with no fast-layer write. -/
def getAll (st : ClientState) (type hash : String) :
    Outcome JSVal × ClientState :=
  if st.modelNames.contains type = false then
    (.rejected ("Model \"" ++ type ++ "\" is unknown."), st)
  else
    let s0 : Option (Outcome JSVal) :=
      if !st.redisStatus && !st.mongooseStatus then
        some (.rejected "Client is not connected.")
      else none
    match (if st.redisStatus then getAllFromRedis st hash
           else (.resolved .vNull, st)) with
    | (.resolved r0, st1) =>
      if jsTruthy r0 = false then
        let s1 : Option (Outcome JSVal) :=
          if !st.mongooseStatus then
            some (s0.getD (.rejected "Cannot connect to Mongoose."))
          else s0
        match getAllFromMongoose st1 type hash with
        | (.resolved r1, st2) => (s1.getD (.resolved r1), st2)
        | (.rejected _, st2) => (s1.getD .hung, st2)
        | (.hung, st2) => (s1.getD .hung, st2)
      else
        match jsParse r0 with
        | some v => (s0.getD (.resolved v), st1)
        | none => (s0.getD .hung, st1)
    | (.rejected _, st1) => (s0.getD .hung, st1)
    | (.hung, st1) => (s0.getD .hung, st1)

/-- `set` (index.ts:223): when the fast layer is up, awaits
`setToRedis(hash, key, this.stringify(value))` (a throw from `stringify`
or a rejected fast-layer write leaves the promise unsettled), then awaits
`setMongoose` and resolves with its boolean. -/
def set (st : ClientState) (type hash key : String) (value : JSVal) :
    Outcome Bool × ClientState :=
  if st.modelNames.contains type = false then
    (.rejected ("Model \"" ++ type ++ "\" is unknown."), st)
  else
    let s0 : Option (Outcome Bool) :=
      if !st.redisStatus && !st.mongooseStatus then
        some (.rejected "Client is not connected.")
      else none
    let redisStep : Outcome Bool × ClientState :=
      if st.redisStatus then
        match stringify value with
        | none => (Outcome.hung, st)
        | some w => setToRedis st hash key w
      else (.resolved true, st)
    match redisStep with
    | (.resolved _, st1) =>
      let s1 : Option (Outcome Bool) :=
        if !st.mongooseStatus then
          some (s0.getD (.rejected "Cannot connect to Mongoose."))
        else s0
      let mres := setMongoose st1 type hash key value
      ((match mres.1 with
        | .resolved b => s1.getD (.resolved b)
        | .rejected _ => s1.getD .hung
        | .hung => s1.getD .hung), mres.2)
    | (.rejected _, st1) => (s0.getD .hung, st1)
    | (.hung, st1) => (s0.getD .hung, st1)

end CacheClient

/-- The Dog collection of the spec's test scenarios (§8). -/
def dogSchema : List (String × String) :=
  [("_id", "String"), ("name", "String"), ("isBarking", "Boolean")]

/-- A fully connected client with the Dog collection registered and both
stores empty. -/
def dogState : ClientState where
  modelNames := ["Dog"]
  schemas := [("Dog", dogSchema)]
  ready := true
  redisStatus := true
  mongooseStatus := true
  hasRedis := true
  hasMongo := true
  redis := []
  mongo := []
  redisReads := 0
  redisWrites := 0
  mongoReads := 0
  mongoWrites := 0

/-- Connected client, empty fast layer, durable store holding a boolean
field value (as left behind by `set("Dog","dog-1","isBarking","true")`,
whose durable write stores the parsed boolean). -/
def barkingTrueState : ClientState :=
  { dogState with mongo := [("Dog", [("dog-1", [("isBarking", JSVal.vBool true)])])] }

/-- Connected client, empty fast layer, durable store holding a falsy
(boolean false) field value. -/
def barkingFalseState : ClientState :=
  { dogState with mongo := [("Dog", [("dog-1", [("isBarking", JSVal.vBool false)])])] }

/-- The spec's §8 scenario: durable store seeded out-of-band with
`{_id:"dog-3", name:"Rex"}`, fast layer empty. -/
def rexState : ClientState :=
  { dogState with mongo := [("Dog", [("dog-3", [("name", JSVal.vStr "Rex")])])] }

-- Helper lemmas --------------------------------------------------------------

theorem alGet_alSet_self {α : Type} (l : List (String × α)) (k : String) (v : α) :
    alGet (alSet l k v) k = some v := by
  induction l with
  | nil => simp [alGet, alSet]
  | cons p rest ih =>
    by_cases h : p.1 = k
    · simp [alGet, alSet, h]
    · cases p with
      | mk k2 v2 => simp_all [alGet, alSet]

theorem hget_hset_self (r : List (String × List (String × String)))
    (k f v : String) : hget (hset r k f v) k f = some v := by
  simp [hget, hset, alGet_alSet_self]

theorem setMongoose_preserves_redis (st : ClientState) (m i f : String) (v : JSVal) :
    (CacheClient.setMongoose st m i f v).2.redis = st.redis := by
  unfold CacheClient.setMongoose
  repeat' split
  all_goals rfl

theorem jsParse_vStr (s : String) : jsParse (JSVal.vStr s) = some (parseStr s) := rfl

theorem jsParse_map (m : List (String × String)) :
    jsParse (JSVal.vObj (m.map (fun p => (p.1, JSVal.vStr p.2))))
      = some (JSVal.vObj (m.map (fun p => (p.1, parseStr p.2)))) := by
  have h1 : ∀ x : String, jsParseAux 999 (JSVal.vStr x) = some (parseStr x) :=
    fun _ => rfl
  have hfold : ∀ l : List (String × String),
      (l.map (fun p => (p.1, JSVal.vStr p.2))).foldr
        (fun p acc =>
          match jsParseAux 999 p.2, acc with
          | some v2, some l2 => some ((p.1, v2) :: l2)
          | _, _ => none)
        (some [])
      = some (l.map (fun p => (p.1, parseStr p.2))) := by
    intro l
    induction l with
    | nil => rfl
    | cons p rest ih => simp [h1, ih]
  have h0 : jsParse (JSVal.vObj (m.map (fun p => (p.1, JSVal.vStr p.2))))
      = ((m.map (fun p => (p.1, JSVal.vStr p.2))).foldr
          (fun p acc =>
            match jsParseAux 999 p.2, acc with
            | some v2, some l2 => some ((p.1, v2) :: l2)
            | _, _ => none)
          (some [])).map JSVal.vObj := rfl
  rw [h0, hfold]
  rfl

-- C5 -------------------------------------------------------------------------

/-- C5: every operation (`get`, `getAll`, `set`) on a collection name that
was never registered rejects with the unknown-model error and leaves the
whole client state (both layers, all access counters) untouched, in every
connectivity state. -/
theorem unknown_collection_rejects_all_ops
    (st : ClientState) (type hash key : String) (value : JSVal)
    (hreg : st.modelNames.contains type = false) :
    CacheClient.get st type hash key
        = (.rejected ("Model \"" ++ type ++ "\" is unknown."), st)
    ∧ CacheClient.getAll st type hash
        = (.rejected ("Model \"" ++ type ++ "\" is unknown."), st)
    ∧ CacheClient.set st type hash key value
        = (.rejected ("Model \"" ++ type ++ "\" is unknown."), st) := by
  refine ⟨?_, ?_, ?_⟩
  · unfold CacheClient.get
    rw [hreg]
    exact rfl
  · unfold CacheClient.getAll
    rw [hreg]
    exact rfl
  · unfold CacheClient.set
    rw [hreg]
    exact rfl

/-- C5 witness: the unregistered "Cat" collection on a fully connected
client. -/
theorem unknown_collection_rejects_all_ops_witness :
    CacheClient.get dogState "Cat" "c" "name"
        = (.rejected "Model \"Cat\" is unknown.", dogState)
    ∧ CacheClient.getAll dogState "Cat" "c"
        = (.rejected "Model \"Cat\" is unknown.", dogState)
    ∧ CacheClient.set dogState "Cat" "c" "name" (.vStr "Tom")
        = (.rejected "Model \"Cat\" is unknown.", dogState) :=
  unknown_collection_rejects_all_ops dogState "Cat" "c" "name" (.vStr "Tom") rfl

-- C8 -------------------------------------------------------------------------

/-- C8: the serializer does not return a string for every input.  The code's
`stringify` passes strings through (that half of the claim holds), but on any
other input it calls `JSON.parse` on the ToString-coercion of the value:
`stringify(true)` evaluates to the boolean `true` itself (not a string),
`stringify(5)` to the number `5`, and `stringify({})` throws. -/
theorem stringify_not_string_producing :
    stringify (.vBool true) = some (.vBool true)
    ∧ stringify (.vNum 5) = some (.vNum 5)
    ∧ stringify (.vObj []) = none
    ∧ stringify (.vStr "owo") = some (.vStr "owo") :=
  ⟨rfl, rfl, rfl, rfl⟩

-- C9 -------------------------------------------------------------------------

/-- C9: `parse` (deserialize) on a string returns the structured decoding,
or the original string unchanged when decoding fails; and on a mapping of
field names to strings it applies itself to each field value, returning a
mapping with the same field names in the same order. -/
theorem parse_decodes_or_passes_through_and_maps :
    (∀ s v, jsonParse s = some v → jsParse (.vStr s) = some v)
    ∧ (∀ s, jsonParse s = none → jsParse (.vStr s) = some (.vStr s))
    ∧ ∀ m : List (String × String),
        jsParse (.vObj (m.map (fun p => (p.1, JSVal.vStr p.2))))
          = some (.vObj (m.map (fun p => (p.1, parseStr p.2)))) := by
  refine ⟨?_, ?_, ?_⟩
  · intro s v h; rw [jsParse_vStr]; simp [parseStr, h]
  · intro s h; rw [jsParse_vStr]; simp [parseStr, h]
  · intro m; exact jsParse_map m

/-- C9 witness: a decodable string, a non-decodable string, and a two-field
record input. -/
theorem parse_decodes_or_passes_through_and_maps_witness :
    jsParse (.vStr "true") = some (.vBool true)
    ∧ jsParse (.vStr "Rex") = some (.vStr "Rex")
    ∧ jsParse (.vObj [("a", .vStr "1"), ("b", .vStr "x")])
        = some (.vObj [("a", .vNum 1), ("b", .vStr "x")]) :=
  ⟨parse_decodes_or_passes_through_and_maps.1 "true" (.vBool true) rfl,
   parse_decodes_or_passes_through_and_maps.2.1 "Rex" rfl,
   parse_decodes_or_passes_through_and_maps.2.2 [("a", "1"), ("b", "x")]⟩

-- C1 -------------------------------------------------------------------------

/-- C1 counterexample: with both layers reachable, `set` of the empty string
on the declared string-typed field "name" succeeds, but the following `get`
resolves with null (the fast-layer hit "" is falsy, so the read falls
through to the durable store, where the stored "" is also falsy and is
mapped to null) — and null is not deserialization-equal to "" (whose
deserialization is "" itself). -/
theorem set_get_empty_string_counterexample :
    (CacheClient.set dogState "Dog" "dog-1" "name" (.vStr "")).1 = .resolved true
    ∧ (CacheClient.get (CacheClient.set dogState "Dog" "dog-1" "name" (.vStr "")).2
        "Dog" "dog-1" "name").1 = .resolved .vNull
    ∧ parseStr "" = .vStr ""
    ∧ JSVal.vNull ≠ JSVal.vStr "" :=
  ⟨rfl, rfl, rfl, fun h => JSVal.noConfusion h⟩

/-- C1 (amended): with both layers reachable, for every registered
collection, id, schema-declared field of matching type, and non-empty
string value V, `set` succeeds and the following `get` resolves with the
deserialization of V (a value deserialization-equal to V). -/
theorem set_get_roundtrip_for_nonempty_strings
    (st : ClientState) (type hash key s inst : String)
    (hreg : st.modelNames.contains type = true)
    (hready : st.ready = true) (hrs : st.redisStatus = true)
    (hms : st.mongooseStatus = true) (hhr : st.hasRedis = true)
    (hhm : st.hasMongo = true) (hs : s ≠ "")
    (hpath : alGet (schemaOf st type) key = some inst)
    (htype : typeofJS (parseStr s) = jsToLowerCase inst) :
    (CacheClient.set st type hash key (.vStr s)).1 = .resolved true
    ∧ (CacheClient.get (CacheClient.set st type hash key (.vStr s)).2
        type hash key).1 = .resolved (parseStr s) := by
  simp only [schemaOf] at hpath
  have hmem : type ∈ st.modelNames := by simpa using hreg
  constructor
  · simp [CacheClient.set, CacheClient.setToRedis, CacheClient.setMongoose,
      CacheClient.mongooseCastCheck, stringify, schemaOf, hready, hrs, hms, hhr, hhm,
      hmem, hpath, htype, jsParse_vStr]
  · simp [CacheClient.set, CacheClient.setToRedis, CacheClient.setMongoose,
      CacheClient.mongooseCastCheck, CacheClient.get, CacheClient.getFromRedis,
      stringify, schemaOf, hready, hrs, hms, hhr, hhm, hmem, hpath, htype,
      jsParse_vStr, hget_hset_self, jsTruthy, hs]

/-- C1 witness: the spec's §8 scenario
`set("Dog","dog-1","isBarking","true")` then `get` returns the boolean
`true`. -/
theorem set_get_roundtrip_for_nonempty_strings_witness :
    (CacheClient.set dogState "Dog" "dog-1" "isBarking" (.vStr "true")).1 = .resolved true
    ∧ (CacheClient.get (CacheClient.set dogState "Dog" "dog-1" "isBarking" (.vStr "true")).2
        "Dog" "dog-1" "isBarking").1 = .resolved (.vBool true) :=
  set_get_roundtrip_for_nonempty_strings dogState "Dog" "dog-1" "isBarking" "true" "Boolean"
    rfl rfl rfl rfl rfl rfl (by decide) rfl rfl

-- C2 -------------------------------------------------------------------------

/-- C2: a `set` whose field is undeclared, or whose deserialized value's
runtime type mismatches the declared type, performs no durable-store
mutation — but it does not fail with an error: the schema-violation Error
is thrown inside the async promise executor of `setMongoose`, so the
promise returned by `set` never settles (the caller observes a hang, not a
rejection). -/
theorem set_schema_violation_never_settles :
    (CacheClient.set dogState "Dog" "dog-1" "isLoud" (.vStr "true")).1 = .hung
    ∧ (CacheClient.set dogState "Dog" "dog-1" "isLoud" (.vStr "true")).2.mongo
        = dogState.mongo
    ∧ (CacheClient.set dogState "Dog" "dog-1" "isLoud" (.vStr "true")).2.mongoWrites = 0
    ∧ (CacheClient.set dogState "Dog" "dog-2" "isBarking" (.vStr "notabool")).1 = .hung
    ∧ (CacheClient.set dogState "Dog" "dog-2" "isBarking" (.vStr "notabool")).2.mongo
        = dogState.mongo
    ∧ (CacheClient.set dogState "Dog" "dog-2" "isBarking" (.vStr "notabool")).2.mongoWrites
        = 0 :=
  ⟨rfl, rfl, rfl, rfl, rfl, rfl⟩

-- C3 -------------------------------------------------------------------------

/-- C3 counterexample: a `set` call with the fast layer reachable and an
object value writes nothing to the fast layer at all — `stringify` throws
(JSON.parse of "[object Object]") before the fast-layer write is issued,
schema validation never runs, and the call never settles. -/
theorem set_object_value_no_fast_write :
    (CacheClient.set dogState "Dog" "dog-1" "name" (.vObj [])).1 = .hung
    ∧ (CacheClient.set dogState "Dog" "dog-1" "name" (.vObj [])).2.redis = dogState.redis
    ∧ (CacheClient.set dogState "Dog" "dog-1" "name" (.vObj [])).2.redisWrites = 0 :=
  ⟨rfl, rfl, rfl⟩

/-- C3 (amended): for every `set` call on a registered collection with the
fast layer reachable whose value serializes to a string (every string
value), the serialized value is written to the fast layer before schema
validation runs, and the write is never reversed: whatever `setMongoose`
does afterwards (including failing the schema check), the final fast-layer
state holds the new value at (id, field). -/
theorem set_fast_write_precedes_validation
    (st : ClientState) (type hash key s : String)
    (hreg : st.modelNames.contains type = true)
    (hready : st.ready = true) (hrs : st.redisStatus = true)
    (hhr : st.hasRedis = true) :
    ((CacheClient.set st type hash key (.vStr s)).2).redis = hset st.redis hash key s
    ∧ hget ((CacheClient.set st type hash key (.vStr s)).2).redis hash key = some s := by
  have hmem : type ∈ st.modelNames := by simpa using hreg
  have hredis : ((CacheClient.set st type hash key (.vStr s)).2).redis
      = hset st.redis hash key s := by
    simp [CacheClient.set, CacheClient.setToRedis, stringify, hready, hrs, hhr,
      hmem, setMongoose_preserves_redis]
  exact ⟨hredis, by rw [hredis]; exact hget_hset_self st.redis hash key s⟩

/-- C3 witness: after the schema-violating
`set("Dog","dog-1","isLoud","true")` (which never settles), the fast layer
retains the new value. -/
theorem set_fast_write_precedes_validation_witness :
    ((CacheClient.set dogState "Dog" "dog-1" "isLoud" (.vStr "true")).2).redis
        = hset dogState.redis "dog-1" "isLoud" "true"
    ∧ hget ((CacheClient.set dogState "Dog" "dog-1" "isLoud" (.vStr "true")).2).redis
        "dog-1" "isLoud" = some "true" :=
  set_fast_write_precedes_validation dogState "Dog" "dog-1" "isLoud" "true" rfl rfl rfl rfl

-- C4 -------------------------------------------------------------------------

/-- C4 counterexample: a `get` that misses the fast layer and reads a
boolean `true` from the durable store resolves with that value but does NOT
populate the fast layer: `stringify(true)` evaluates to the boolean itself,
the fast-layer client rejects the non-string field value, and the
fire-and-forget write is dropped — so an immediately following `get` for
the same (id, field) reads the durable store again (second durable read
counter goes to 2). -/
theorem get_nonstring_durable_value_not_cached :
    (CacheClient.get barkingTrueState "Dog" "dog-1" "isBarking").1
        = .resolved (.vBool true)
    ∧ (CacheClient.get barkingTrueState "Dog" "dog-1" "isBarking").2.redis
        = barkingTrueState.redis
    ∧ (CacheClient.get barkingTrueState "Dog" "dog-1" "isBarking").2.mongoReads = 1
    ∧ (CacheClient.get (CacheClient.get barkingTrueState "Dog" "dog-1" "isBarking").2
        "Dog" "dog-1" "isBarking").2.mongoReads = 2 :=
  ⟨rfl, rfl, rfl, rfl⟩

/-- C4 (amended): for every `get` on a registered collection whose
fast-layer lookup misses and whose durable-store read yields a non-empty
string value, the fast layer is populated with that serialized value before
the call returns, and an immediately following `get` for the same
(id, field) is served from the fast layer with no durable-store access. -/
theorem get_readthrough_populates_for_string_values
    (st : ClientState) (type hash key s : String) (doc : List (String × JSVal))
    (hreg : st.modelNames.contains type = true)
    (hready : st.ready = true) (hrs : st.redisStatus = true)
    (hms : st.mongooseStatus = true) (hhr : st.hasRedis = true)
    (hhm : st.hasMongo = true)
    (hmiss : hget st.redis hash key = none)
    (hdoc : findOne st.mongo type hash = some doc)
    (hfield : alGet doc key = some (.vStr s))
    (hs : s ≠ "") :
    (CacheClient.get st type hash key).1 = .resolved (.vStr s)
    ∧ hget (CacheClient.get st type hash key).2.redis hash key = some s
    ∧ (CacheClient.get (CacheClient.get st type hash key).2 type hash key).1
        = .resolved (parseStr s)
    ∧ (CacheClient.get (CacheClient.get st type hash key).2 type hash key).2.mongoReads
        = (CacheClient.get st type hash key).2.mongoReads := by
  have hmem : type ∈ st.modelNames := by simpa using hreg
  have h1 : CacheClient.get st type hash key
      = (.resolved (.vStr s),
         { st with redisReads := st.redisReads + 1,
                   mongoReads := st.mongoReads + 1,
                   redis := hset st.redis hash key s,
                   redisWrites := st.redisWrites + 1 }) := by
    simp [CacheClient.get, CacheClient.getFromRedis, CacheClient.getFromMongoose,
      CacheClient.setToRedis, stringify, hmem, hready, hrs, hms, hhr, hhm, hmiss,
      hdoc, hfield, jsTruthy, hs]
  refine ⟨by rw [h1], ?_, ?_, ?_⟩
  · rw [h1]
    exact hget_hset_self st.redis hash key s
  · rw [h1]
    simp [CacheClient.get, CacheClient.getFromRedis, hmem, hready, hrs, hhr,
      hget_hset_self, jsTruthy, hs, jsParse_vStr]
  · rw [h1]
    simp [CacheClient.get, CacheClient.getFromRedis, hmem, hready, hrs, hhr,
      hget_hset_self, jsTruthy, hs, jsParse_vStr]

/-- C4 witness: the spec's §8 "Rex" scenario — the read-through fill works
for the string value "Rex". -/
theorem get_readthrough_populates_for_string_values_witness :
    (CacheClient.get rexState "Dog" "dog-3" "name").1 = .resolved (.vStr "Rex")
    ∧ hget (CacheClient.get rexState "Dog" "dog-3" "name").2.redis "dog-3" "name"
        = some "Rex"
    ∧ (CacheClient.get (CacheClient.get rexState "Dog" "dog-3" "name").2
        "Dog" "dog-3" "name").1 = .resolved (.vStr "Rex")
    ∧ (CacheClient.get (CacheClient.get rexState "Dog" "dog-3" "name").2
        "Dog" "dog-3" "name").2.mongoReads
        = (CacheClient.get rexState "Dog" "dog-3" "name").2.mongoReads :=
  get_readthrough_populates_for_string_values rexState "Dog" "dog-3" "name" "Rex"
    [("name", .vStr "Rex")] rfl rfl rfl rfl rfl rfl rfl rfl rfl (by decide)

-- C6 -------------------------------------------------------------------------

/-- C6: a `get` on a registered collection with the durable store reachable,
for an (id, field) absent from the fast layer and from the durable store
(no record, or a record without that field), resolves with the absent
marker null and is not an error. -/
theorem get_absent_resolves_null
    (st : ClientState) (type hash key : String)
    (hreg : st.modelNames.contains type = true)
    (hready : st.ready = true) (hms : st.mongooseStatus = true)
    (hhm : st.hasMongo = true)
    (hhr : st.redisStatus = true → st.hasRedis = true)
    (hmiss : hget st.redis hash key = none)
    (habs : findOne st.mongo type hash = none ∨
      ∃ doc, findOne st.mongo type hash = some doc ∧ alGet doc key = none) :
    (CacheClient.get st type hash key).1 = .resolved .vNull := by
  have hmem : type ∈ st.modelNames := by simpa using hreg
  rcases habs with h | ⟨doc, hdoc, hfield⟩
  · cases hrs : st.redisStatus with
    | true =>
      have hr := hhr hrs
      simp [CacheClient.get, CacheClient.getFromRedis, CacheClient.getFromMongoose,
        hmem, hready, hms, hhm, hr, hrs, hmiss, h, jsTruthy]
    | false =>
      simp [CacheClient.get, CacheClient.getFromRedis, CacheClient.getFromMongoose,
        hmem, hready, hms, hhm, hrs, hmiss, h, jsTruthy]
  · cases hrs : st.redisStatus with
    | true =>
      have hr := hhr hrs
      simp [CacheClient.get, CacheClient.getFromRedis, CacheClient.getFromMongoose,
        hmem, hready, hms, hhm, hr, hrs, hmiss, hdoc, hfield, jsTruthy]
    | false =>
      simp [CacheClient.get, CacheClient.getFromRedis, CacheClient.getFromMongoose,
        hmem, hready, hms, hhm, hrs, hmiss, hdoc, hfield, jsTruthy]

/-- C6 witness: an id absent from both layers on a fully connected client. -/
theorem get_absent_resolves_null_witness :
    (CacheClient.get dogState "Dog" "nope" "name").1 = .resolved .vNull :=
  get_absent_resolves_null dogState "Dog" "nope" "name" rfl rfl rfl rfl
    (fun _ => rfl) rfl (Or.inl rfl)

-- C7 -------------------------------------------------------------------------

/-- C7: when the durable record exists and the stored field value is falsy
(boolean false, number 0, or the empty string), a `get` that misses the
fast layer resolves with null instead of the stored value: the durable
extraction `doc[field] ? doc[field] : null` maps every falsy value to
null. -/
theorem get_falsy_durable_value_resolves_null
    (st : ClientState) (type hash key : String)
    (doc : List (String × JSVal)) (v : JSVal)
    (hreg : st.modelNames.contains type = true)
    (hready : st.ready = true) (hms : st.mongooseStatus = true)
    (hhm : st.hasMongo = true)
    (hhr : st.redisStatus = true → st.hasRedis = true)
    (hmiss : hget st.redis hash key = none)
    (hdoc : findOne st.mongo type hash = some doc)
    (hfield : alGet doc key = some v)
    (hfalsy : v = .vBool false ∨ v = .vNum 0 ∨ v = .vStr "") :
    (CacheClient.get st type hash key).1 = .resolved .vNull ∧ JSVal.vNull ≠ v := by
  have hmem : type ∈ st.modelNames := by simpa using hreg
  have htr : jsTruthy v = false := by
    rcases hfalsy with h | h | h <;> simp [h, jsTruthy]
  have htrn : jsTruthy JSVal.vNull = false := rfl
  constructor
  · cases hrs : st.redisStatus with
    | true =>
      have hr := hhr hrs
      simp [CacheClient.get, CacheClient.getFromRedis, CacheClient.getFromMongoose,
        hmem, hready, hms, hhm, hr, hrs, hmiss, hdoc, hfield, htr, htrn]
    | false =>
      simp [CacheClient.get, CacheClient.getFromRedis, CacheClient.getFromMongoose,
        hmem, hready, hms, hhm, hrs, hmiss, hdoc, hfield, htr, htrn]
  · rcases hfalsy with h | h | h <;> simp [h]

/-- C7 witness: a stored boolean `false` is reported as null. -/
theorem get_falsy_durable_value_resolves_null_witness :
    (CacheClient.get barkingFalseState "Dog" "dog-1" "isBarking").1 = .resolved .vNull
    ∧ JSVal.vNull ≠ JSVal.vBool false :=
  get_falsy_durable_value_resolves_null barkingFalseState "Dog" "dog-1" "isBarking"
    [("isBarking", .vBool false)] (.vBool false) rfl rfl rfl rfl (fun _ => rfl)
    rfl rfl rfl (Or.inl rfl)

-- C10 ------------------------------------------------------------------------

/-- C10: a `getAll` on a registered collection whose fast-layer lookup
misses, with the durable store reachable and holding a record, resolves
with the whole record as-is and performs no fast-layer write: the final
fast-layer state and write counter are unchanged. -/
theorem getAll_miss_returns_record_without_fast_write
    (st : ClientState) (type hash : String) (doc : List (String × JSVal))
    (hreg : st.modelNames.contains type = true)
    (hready : st.ready = true) (hrs : st.redisStatus = true)
    (hms : st.mongooseStatus = true) (hhr : st.hasRedis = true)
    (hhm : st.hasMongo = true)
    (hmiss : alGet st.redis hash = none)
    (hdoc : findOne st.mongo type hash = some doc) :
    (CacheClient.getAll st type hash).1 = .resolved (.vObj doc)
    ∧ (CacheClient.getAll st type hash).2.redis = st.redis
    ∧ (CacheClient.getAll st type hash).2.redisWrites = st.redisWrites := by
  have hmem : type ∈ st.modelNames := by simpa using hreg
  refine ⟨?_, ?_, ?_⟩ <;>
    simp [CacheClient.getAll, CacheClient.getAllFromRedis, CacheClient.getAllFromMongoose,
      hmem, hready, hrs, hms, hhr, hhm, hmiss, hdoc, jsTruthy]

/-- C10 witness: `getAll` of the seeded "dog-3" record. -/
theorem getAll_miss_returns_record_without_fast_write_witness :
    (CacheClient.getAll rexState "Dog" "dog-3").1
        = .resolved (.vObj [("name", .vStr "Rex")])
    ∧ (CacheClient.getAll rexState "Dog" "dog-3").2.redis = rexState.redis
    ∧ (CacheClient.getAll rexState "Dog" "dog-3").2.redisWrites = rexState.redisWrites :=
  getAll_miss_returns_record_without_fast_write rexState "Dog" "dog-3"
    [("name", .vStr "Rex")] rfl rfl rfl rfl rfl rfl rfl rfl
